import Mathlib

/-!
Shallow embedding of the dependency-tracking reactivity core
(`src/core/observer/dep.js`, `src/core/observer/index.js`) of the
repository: `Dep` notification channels, the global active-subscriber
(watcher) stack, the property interceptor `defineReactive`, the
`observe` factory, and the `set`/`del` dynamic-membership entry points.

Machine details of the JS runtime are modelled explicitly: strict
equality (`===`, with `NaN !== NaN`), `Array.prototype.splice` and
assignment to `.length`, and object property tables keyed by strings.
Watcher (subscriber) objects are opaque aside from their numeric `id`;
calls the core makes into a watcher (`addDep`, `update`) are recorded
as traces (lists) rather than executed, since watcher code lives
outside this repository.
-/

namespace VueReactivity

/-- An opaque subscriber (`Watcher` in `dep.js`); the core only ever
looks at its creation `id` (used by the sort in `Dep.notify`). -/
structure Watcher where
  id : Nat
deriving DecidableEq, Repr

/-- The comparator `(a, b) => a.id - b.id` used by `Dep.notify`:
ascending creation id. -/
def watcherLe (a b : Watcher) : Prop := a.id ≤ b.id

instance : DecidableRel watcherLe := fun a b => Nat.decLe a.id b.id

instance : IsTotal Watcher watcherLe := ⟨fun a b => Nat.le_total a.id b.id⟩

instance : IsTrans Watcher watcherLe := ⟨fun _ _ _ hab hbc => Nat.le_trans hab hbc⟩

/-- `Dep` from `dep.js`: a creation-ordered unique `id` (from the
module-level `uid` counter) and the subscriber list `subs`. -/
structure Dep where
  id : Nat
  subs : List Watcher
deriving DecidableEq, Repr

/-- `Dep.prototype.addSub`: `this.subs.push(sub)` (append at the end). -/
def Dep.addSub (d : Dep) (s : Watcher) : Dep :=
  { d with subs := d.subs ++ [s] }

/-- `Dep.prototype.notify`: snapshot `this.subs` with `slice()`, and when
the build is not production and `config.async` is off, sort the snapshot
with `(a, b) => a.id - b.id`; then call `update()` on each element in
order.  The returned list is the order in which `update()` is invoked.
`List.insertionSort` models the engine sort: a stable sorted permutation,
which is exactly what the ECMAScript `Array.prototype.sort` contract
guarantees for this consistent comparator. -/
def Dep.notifyOrder (production async : Bool) (d : Dep) : List Watcher :=
  let subs := d.subs
  if !production && !async then List.insertionSort watcherLe subs else subs

/-- The module-level state at the bottom of `dep.js`: `Dep.target`
(the active subscriber pointer, `null`/`undefined` modelled as `none`)
and `targetStack`.  The head of `stack` models the END of the JS array
(`targetStack[targetStack.length - 1]`), i.e. the top of the stack. -/
structure TargetState where
  stack : List (Option Watcher)
  target : Option Watcher
deriving DecidableEq, Repr

/-- Initial module state: `Dep.target = null`, `const targetStack = []`. -/
def initialTargetState : TargetState :=
  { stack := [], target := none }

/-- `pushTarget(target)`: `targetStack.push(target); Dep.target = target`. -/
def pushTarget (w : Option Watcher) (s : TargetState) : TargetState :=
  { stack := w :: s.stack, target := w }

/-- `popTarget()`: `targetStack.pop()` (no-op on an empty array), then
`Dep.target = targetStack[targetStack.length - 1]` — the new top, or
`undefined` (`none`) when the stack is empty. -/
def popTarget (s : TargetState) : TargetState :=
  let rest := s.stack.tail
  { stack := rest, target := rest.headD none }

/-- The module invariant of `dep.js`: `Dep.target` always equals the top
of `targetStack` (or `none` when the stack is empty).  It holds initially
and is preserved by `pushTarget` and `popTarget`, the only code that
writes either variable after initialization. -/
def targetInvariant (s : TargetState) : Prop :=
  s.target = s.stack.headD none

theorem targetInvariant_initial : targetInvariant initialTargetState := rfl

theorem targetInvariant_push (s : TargetState) (w : Option Watcher) :
    targetInvariant (pushTarget w s) := rfl

theorem targetInvariant_pop (s : TargetState) :
    targetInvariant (popTarget s) := rfl

/-- Membership in the `notify` delivery order is exactly membership in
`subs`, in every build/async mode. -/
theorem mem_notifyOrder (production async : Bool) (d : Dep) (w : Watcher) :
    w ∈ Dep.notifyOrder production async d ↔ w ∈ d.subs := by
  unfold Dep.notifyOrder
  by_cases h : (!production && !async) = true
  · rw [if_pos h]
    exact (List.perm_insertionSort watcherLe d.subs).mem_iff
  · rw [if_neg h]

/-- A JS primitive value as far as the reactivity core can tell them
apart.  `nan` is kept separate from `num` because strict equality treats
it specially (`NaN !== NaN`). -/
inductive Value where
  | num : Int → Value
  | nan : Value
  | str : String → Value
  | bool : Bool → Value
  | undef : Value
  | «null» : Value
deriving DecidableEq, Repr

/-- The `Observer` of `index.js`, minus the `value` back-reference
(which would be mutually recursive with the observed value; no claim
reads `ob.value` other than as an alias of the target itself): its own
collection `Dep` and the `vmCount` root-usage counter. -/
structure Observer where
  dep : Dep
  vmCount : Nat
deriving DecidableEq, Repr

/-- A JS value as stored in a reactive slot.  Object and array values
carry a reference identity `ref` (strict equality on objects is
reference equality) and their `__ob__` slot (`none` when unobserved);
array values also carry their elements, which `dependArray` walks. -/
inductive ObsValue where
  | prim : Value → ObsValue
  | obj : Nat → Option Observer → ObsValue
  | arr : Nat → Option Observer → List ObsValue → ObsValue
deriving Repr

/-- JS strict equality `===` on stored values: `NaN` is not equal to
itself; objects and arrays compare by reference. -/
def jsEq : ObsValue → ObsValue → Bool
  | .prim .nan, _ => false
  | _, .prim .nan => false
  | .prim a, .prim b => a == b
  | .obj r _, .obj r2 _ => r == r2
  | .arr r _ _, .arr r2 _ _ => r == r2
  | _, _ => false

/-- `v !== v`: true exactly for `NaN`. -/
def selfNeq (v : ObsValue) : Bool := !(jsEq v v)

/-- The `__ob__` carried by a stored value (what `observe(val)` returns
for it inside `defineReactive`: the child Observer, or `none` for
primitives and unobserved values). -/
def childObOf : ObsValue → Option Observer
  | .prim _ => none
  | .obj _ ob => ob
  | .arr _ ob _ => ob

/-- `dependArray(value)` from `index.js`: for each element `e`, when `e`
is truthy and has an `__ob__`, register `e.__ob__.dep` (one `depend()`
call, recorded as the dep id passed to `Dep.target.addDep`); recurse
into array elements.  Returns the trace of dep ids registered, in call
order. -/
def dependArrayTrace : List ObsValue → List Nat
  | [] => []
  | e :: rest =>
    (match e with
     | .obj _ (some ob) => [ob.dep.id]
     | .arr _ (some ob) _ => [ob.dep.id]
     | _ => []) ++
    (match e with
     | .arr _ _ es => dependArrayTrace es
     | _ => []) ++
    dependArrayTrace rest

/-- One reactive property as installed by `defineReactive`: its key, the
closed-over `val`, and the dedicated `dep` created at install time.
The delegate getter/setter pair of a pre-existing accessor property,
the dev-only `customSetter` hook and the `shallow` flag are not
modelled: all installs performed by `walk` and `set` are on plain data
properties with `shallow` unset.  The `childOb` reference is not stored
separately: it is `childObOf` of the current value, which is what
`observe(val)` yields for an already-observed value. -/
structure RProp where
  key : String
  value : ObsValue
  dep : Dep
deriving Repr

/-- The `reactiveGetter` installed by `defineReactive`: returns the
current value and, only when `Dep.target` is set, registers `dep`
(via `dep.depend()`), then the child Observer's collection dep when the
value is observed, then — when the value is an array — every observed
array element's dep via `dependArray`.  The second component is the
trace of dep ids handed to the active watcher's `addDep`, in call
order; with no active watcher the trace is empty and no `Dep` anywhere
is touched. -/
def reactiveGet (target : Option Watcher) (p : RProp) : ObsValue × List Nat :=
  let value := p.value
  match target with
  | none => (value, [])
  | some _ =>
    (value,
      [p.dep.id] ++
      (match childObOf value with
       | some ob =>
         [ob.dep.id] ++
         (match value with
          | .arr _ _ es => dependArrayTrace es
          | _ => [])
       | none => []))

/-- The `reactiveSetter` installed by `defineReactive`: compute the old
value; when `newVal === value`, or both are not equal to themselves
(the `NaN` case), return without touching anything; otherwise store the
new value and `dep.notify()`.  Returns the updated property and the
watchers whose `update()` the notify invoked, in order.  (The dev-only
`customSetter` call, the `getter && !setter` accessor guard and the
`childOb` refresh concern delegate-accessor / shallow installs, not
modelled here.) -/
def reactiveSet (production async : Bool) (p : RProp) (newVal : ObsValue) :
    RProp × List Watcher :=
  let value := p.value
  if jsEq newVal value || (selfNeq newVal && selfNeq value) then (p, [])
  else
    ({ p with value := newVal }, Dep.notifyOrder production async p.dep)

/-- The inputs `observe` inspects about its argument, as boolean
classifications plus the mutable `__ob__` slot: `isObjectVal` is
`isObject(value)` (a non-null object), `isVNode` is
`value instanceof VNode`, `isArrayOrPlainObject` is
`Array.isArray(value) || isPlainObject(value)`, `isExtensible` is
`Object.isExtensible(value)`, and `isVue` is `value._isVue`. -/
structure ObservableValue where
  isObjectVal : Bool
  isVNode : Bool
  isArrayOrPlainObject : Bool
  isExtensible : Bool
  isVue : Bool
  ob : Option Observer
deriving DecidableEq, Repr

/-- Module-level state `observe` reads: the `shouldObserve` toggle,
`isServerRendering()`, and the `uid` counter of `dep.js` from which the
next constructed `Dep` takes its id (so constructing an Observer bumps
it). -/
structure ObserveEnv where
  shouldObserve : Bool
  isServerRendering : Bool
  nextDepId : Nat
deriving DecidableEq, Repr

/-- `observe(value, asRootData)` from `index.js`.  Returns the Observer
(or `none`), the value (whose `__ob__` slot the Observer constructor
fills via `def(value, ..)`), and the updated module state.  The
Observer constructor's recursive conversion of children (`walk` /
array-method augmentation + `observeArray`) mutates other values and is
not reflected in this single-value view; the constructor's own effects
on `value` — a fresh `Dep`, `vmCount = 0`, and the `__ob__` marker —
are.  `if (asRootData && ob) ob.vmCount++` mutates the same Observer
object the marker aliases, hence both returned copies are updated. -/
def observe (env : ObserveEnv) (v : ObservableValue) (asRootData : Bool) :
    Option Observer × ObservableValue × ObserveEnv :=
  if !v.isObjectVal || v.isVNode then (none, v, env)
  else
    match v.ob with
    | some o =>
      if asRootData then
        let o2 := { o with vmCount := o.vmCount + 1 }
        (some o2, { v with ob := some o2 }, env)
      else (some o, v, env)
    | none =>
      if env.shouldObserve && !env.isServerRendering && v.isArrayOrPlainObject
          && v.isExtensible && !v.isVue then
        let o : Observer := { dep := { id := env.nextDepId, subs := [] }, vmCount := 0 }
        let env2 := { env with nextDepId := env.nextDepId + 1 }
        if asRootData then
          let o2 := { o with vmCount := o.vmCount + 1 }
          (some o2, { v with ob := some o2 }, env2)
        else (some o, { v with ob := some o }, env2)
      else (none, v, env)

/-- One entry of an object's own-property table: either a tracked
property (installed by `defineReactive`, with interceptors) or a plain
data property (never converted). -/
inductive PropEntry where
  | tracked : RProp → PropEntry
  | plain : String → ObsValue → PropEntry
deriving Repr

/-- The key of a property entry. -/
def PropEntry.key : PropEntry → String
  | .tracked p => p.key
  | .plain k _ => k

/-- A plain JS object as `set`/`del` see it: its own-property table in
insertion order, its `__ob__` slot, and the `_isVue` flag. -/
structure RObject where
  props : List PropEntry
  ob : Option Observer
  isVue : Bool
deriving Repr

/-- `key in target` for own properties (the prototype chain holds no
data keys for the state objects these entry points are used on, and
`!(key in Object.prototype)` excludes only `Object.prototype` members). -/
def hasKey (o : RObject) (key : String) : Bool :=
  o.props.any fun e => e.key == key

/-- The root-container refusal guard shared by `set` and `del`:
`target._isVue || (ob && ob.vmCount)`. -/
def isRootGuard (o : RObject) : Bool :=
  o.isVue ||
    (match o.ob with
     | some ob => ob.vmCount != 0
     | none => false)

/-- `target[key] = val` on an object: walking the own-property table,
an existing tracked entry routes through its `reactiveSetter` (which
may notify that property's dep), an existing plain entry is overwritten
silently, and an absent key is created as a plain property.  Returns
the updated table and the watchers notified. -/
def assignProps (production async : Bool) :
    List PropEntry → String → ObsValue → List PropEntry × List Watcher
  | [], k, v => ([.plain k v], [])
  | e :: rest, k, v =>
    if e.key == k then
      match e with
      | .tracked p =>
        (.tracked (reactiveSet production async p v).1 :: rest,
          (reactiveSet production async p v).2)
      | .plain _ _ => (.plain k v :: rest, [])
    else
      (e :: (assignProps production async rest k v).1,
        (assignProps production async rest k v).2)

/-- `target[key] = val` at the object level: the property table is
rewritten by `assignProps` and the notified watchers surface. -/
def assignKey (production async : Bool) (o : RObject) (key : String)
    (v : ObsValue) : RObject × List Watcher :=
  ({ o with props := (assignProps production async o.props key v).1 },
    (assignProps production async o.props key v).2)

/-- Result of `set(target, key, val)` on an object: the target after
the call, the watchers whose `update()` ran, the returned value, and
the `dep.js` uid counter after the call (a fresh `Dep` is allocated
exactly when `defineReactive` ran). -/
structure SetResult where
  target : RObject
  notified : List Watcher
  ret : ObsValue
  nextDepId : Nat
deriving Repr

/-- `set(target, key, val)` from `index.js`, object path (the
`Array.isArray` branch is `setArr` below; the dev-only warning for
undefined/primitive targets only logs).  In order: an existing key is
assigned through whatever interceptor it has; a root container
(`_isVue` or `vmCount` nonzero) refuses the addition; an unobserved
target gets a plain assignment; otherwise `defineReactive(ob.value,
key, val)` installs a tracked property with a fresh `Dep` and
`ob.dep.notify()` fires.  Always returns `val`. -/
def setObj (production async : Bool) (nextDepId : Nat) (o : RObject)
    (key : String) (val : ObsValue) : SetResult :=
  if hasKey o key then
    ⟨{ o with props := (assignProps production async o.props key val).1 },
      (assignProps production async o.props key val).2, val, nextDepId⟩
  else if isRootGuard o then ⟨o, [], val, nextDepId⟩
  else
    match o.ob with
    | none => ⟨{ o with props := o.props ++ [.plain key val] }, [], val, nextDepId⟩
    | some ob =>
      ⟨{ o with props := o.props ++
          [.tracked { key := key, value := val, dep := { id := nextDepId, subs := [] } }] },
        Dep.notifyOrder production async ob.dep, val, nextDepId + 1⟩

/-- `delete target[key]`: remove the (unique) own property named `key`. -/
def deleteKey : List PropEntry → String → List PropEntry
  | [], _ => []
  | e :: rest, k => if e.key == k then rest else e :: deleteKey rest k

/-- Result of `del(target, key)`: the target afterwards and the
watchers whose `update()` ran. -/
structure DelResult where
  target : RObject
  notified : List Watcher
deriving Repr

/-- `del(target, key)` from `index.js`, object path: refuse on a root
container; no-op when `key` is not an own property; otherwise delete
it, and when the target has an Observer, `ob.dep.notify()`. -/
def delObj (production async : Bool) (o : RObject) (key : String) : DelResult :=
  if isRootGuard o then ⟨o, []⟩
  else if !(hasKey o key) then ⟨o, []⟩
  else
    let o2 := { o with props := deleteKey o.props key }
    match o.ob with
    | none => ⟨o2, []⟩
    | some ob => ⟨o2, Dep.notifyOrder production async ob.dep⟩

/-- One property entry after a watcher registered on the dep of the
tracked property named `key` (what `watcher.addDep` does after that
property's getter handed it the dep: `dep.addSub(this)`). -/
def addSubEntry (key : String) (w : Watcher) : PropEntry → PropEntry
  | .tracked p =>
    if p.key == key then .tracked { p with dep := p.dep.addSub w } else .tracked p
  | .plain k v => .plain k v

/-- A watcher registering itself on the dep of the tracked property
`key` of `o`. -/
def addSubToProp (o : RObject) (key : String) (w : Watcher) : RObject :=
  { o with props := o.props.map (addSubEntry key w) }

/-- A JS array as `set`/`del` see it: its elements and its `__ob__`
slot (`some` exactly when the array has been observed, in which case
its mutating methods are the wrapped ones). -/
structure RArray where
  elems : List ObsValue
  ob : Option Observer
deriving Repr

/-- Assignment to `.length`: truncate, or extend with holes that read
back as `undefined`. -/
def jsSetLength (elems : List ObsValue) (n : Nat) : List ObsValue :=
  if n ≤ elems.length then elems.take n
  else elems ++ List.replicate (n - elems.length) (.prim .undef)

/-- `Array.prototype.splice(start, deleteCount, ...items)` on the
element list, for non-negative `start`: `start` clamps to the length,
`deleteCount` clamps to the elements remaining after `start`, the
clamped window is removed and `items` inserted in its place. -/
def jsSplice (elems : List ObsValue) (start delCount : Nat)
    (items : List ObsValue) : List ObsValue :=
  let s := min start elems.length
  let d := min delCount (elems.length - s)
  elems.take s ++ items ++ elems.drop (s + d)

/-- Modelled from the spec: the wrapped `splice` of the missing
`src/core/observer/array.js` (only imported here as `arrayMethods`),
per §4.3: perform the original mutation, observe any newly inserted
elements, and notify the array's own Dep (`this.__ob__.dep.notify()`).
Observing an inserted element mutates that element in place
(reference-preserving), so the stored elements are the inserted items
themselves; an unobserved array still has the original, silent
`splice`.  Returns the mutated array and the watchers whose `update()`
the notify invoked. -/
def wrappedSplice (production async : Bool) (arr : RArray)
    (start delCount : Nat) (items : List ObsValue) : RArray × List Watcher :=
  let elems2 := jsSplice arr.elems start delCount items
  match arr.ob with
  | some ob => ({ arr with elems := elems2 }, Dep.notifyOrder production async ob.dep)
  | none => ({ arr with elems := elems2 }, [])

/-- `set(target, key, val)` from `index.js`, array branch (taken when
`Array.isArray(target) && isValidArrayIndex(key)`; a valid index is a
non-negative integer, so `key : Nat`):
`target.length = Math.max(target.length, key)`, then
`target.splice(key, 1, val)` — the wrapped splice on an observed
array — and return `val`. -/
def setArr (production async : Bool) (arr : RArray) (key : Nat)
    (val : ObsValue) : RArray × List Watcher × ObsValue :=
  let arr1 := { arr with elems := jsSetLength arr.elems (max arr.elems.length key) }
  let r := wrappedSplice production async arr1 key 1 [val]
  (r.1, r.2, val)

/-- C10: `popTarget()` on an empty target stack does not fail: the
stack stays empty and `Dep.target` becomes `undefined` (no subscriber),
whatever the pointer held before. -/
theorem popTarget_on_empty_stack (t : Option Watcher) :
    popTarget { stack := [], target := t } = { stack := [], target := none } := rfl

/-- C5: from any state satisfying the module invariant (the pointer
equals the top of the stack, as in every reachable state), a
`pushTarget w` followed by the balancing `popTarget` restores both the
stack and the active-subscriber pointer, so a nested evaluation hands
back the outer subscriber when it finishes. -/
theorem pushTarget_popTarget_restores (s : TargetState) (w : Option Watcher)
    (h : targetInvariant s) :
    popTarget (pushTarget w s) = s := by
  unfold popTarget pushTarget
  cases s with
  | mk stack target =>
    simp only [List.tail_cons]
    unfold targetInvariant at h
    simp_all

theorem pushTarget_popTarget_restores_witness :
    targetInvariant { stack := [some ⟨0⟩], target := some ⟨0⟩ } ∧
      popTarget (pushTarget (some ⟨1⟩) { stack := [some ⟨0⟩], target := some ⟨0⟩ }) =
        { stack := [some ⟨0⟩], target := some ⟨0⟩ } :=
  ⟨rfl, pushTarget_popTarget_restores { stack := [some ⟨0⟩], target := some ⟨0⟩ } (some ⟨1⟩) rfl⟩

/-- C4 counterexample: with a production build and `config.async` off —
the non-deferred mode the claim quantifies over — `notify` does not
sort, so subscribers added out of id order fire out of id order. -/
theorem notifyOrder_not_sorted_in_production :
    ¬ List.Sorted watcherLe
      (Dep.notifyOrder true false { id := 0, subs := [⟨1⟩, ⟨0⟩] }) := by
  decide

/-- C4 (amended): in a non-production build with the async mode off,
`notify` invokes `update()` on all of its subscribers — the delivery
order is a permutation of `subs` — in ascending order of their creation
id, regardless of the order `addSub` appended them. -/
theorem notifyOrder_sorted_when_sync (d : Dep) :
    List.Sorted watcherLe (Dep.notifyOrder false false d) ∧
      (Dep.notifyOrder false false d).Perm d.subs :=
  ⟨List.sorted_insertionSort watcherLe d.subs,
    List.perm_insertionSort watcherLe d.subs⟩

/-- C2: the `reactiveSetter` is a silent no-op — property state
untouched, nobody's `update()` invoked — whenever the incoming value is
strictly equal to the current one, or both are not equal to themselves
(writing `NaN` over `NaN`). -/
theorem reactiveSet_equal_is_noop (production async : Bool) (p : RProp)
    (v : ObsValue)
    (h : (jsEq v p.value || (selfNeq v && selfNeq p.value)) = true) :
    reactiveSet production async p v = (p, []) := by
  unfold reactiveSet
  rw [if_pos h]

theorem reactiveSet_equal_is_noop_witness :
    ((jsEq (ObsValue.prim .nan) (ObsValue.prim .nan) ||
        (selfNeq (ObsValue.prim .nan) && selfNeq (ObsValue.prim .nan))) = true) ∧
      reactiveSet false false
          { key := "a", value := .prim .nan, dep := { id := 0, subs := [⟨0⟩] } }
          (.prim .nan) =
        ({ key := "a", value := .prim .nan, dep := { id := 0, subs := [⟨0⟩] } }, []) :=
  ⟨rfl,
    reactiveSet_equal_is_noop false false
      { key := "a", value := .prim .nan, dep := { id := 0, subs := [⟨0⟩] } }
      (.prim .nan) rfl⟩

/-- C7: the `reactiveGetter` with no active subscriber registers
nothing (its `addDep` trace is empty, so no Dep anywhere changes),
while under an active subscriber it registers the property's own dep
with that subscriber via `depend`. -/
theorem reactiveGet_registers_iff_target (p : RProp) (w : Watcher) :
    (reactiveGet none p).2 = [] ∧ p.dep.id ∈ (reactiveGet (some w) p).2 := by
  refine ⟨rfl, ?_⟩
  unfold reactiveGet
  simp

/-- C3: when a first `observe(v)` returns an Observer, a second
`observe` of the (now marked) value returns that same Observer and
constructs nothing new: the value and the module state — including the
`uid` counter that a fresh `Dep` would bump — come back unchanged. -/
theorem observe_twice_same_observer (env : ObserveEnv) (v : ObservableValue)
    (o : Observer) (v1 : ObservableValue) (e1 : ObserveEnv)
    (h : observe env v false = (some o, v1, e1)) :
    observe e1 v1 false = (some o, v1, e1) := by
  unfold observe at h ⊢
  by_cases hg : (!v.isObjectVal || v.isVNode) = true
  · rw [if_pos hg] at h
    exact absurd (congrArg Prod.fst h) (by simp)
  · rw [if_neg hg] at h
    have hgf : (!v.isObjectVal || v.isVNode) = false := by simpa using hg
    cases hv : v.ob with
    | some o2 =>
      rw [hv] at h
      have ho : o2 = o := Option.some.inj (congrArg Prod.fst h)
      have hv1 : v = v1 := congrArg (fun x => x.2.1) h
      have he1 : env = e1 := congrArg (fun x => x.2.2) h
      subst ho hv1 he1
      simp [hgf, hv]
    | none =>
      rw [hv] at h
      by_cases hc : (env.shouldObserve && !env.isServerRendering &&
          v.isArrayOrPlainObject && v.isExtensible && !v.isVue) = true
      · rw [if_pos hc] at h
        have ho : ({ dep := { id := env.nextDepId, subs := [] }, vmCount := 0 } : Observer) = o :=
          Option.some.inj (congrArg Prod.fst h)
        have hv1 : { v with
            ob := some { dep := { id := env.nextDepId, subs := [] }, vmCount := 0 } } = v1 :=
          congrArg (fun x => x.2.1) h
        have he1 : { env with nextDepId := env.nextDepId + 1 } = e1 :=
          congrArg (fun x => x.2.2) h
        subst ho hv1 he1
        simp [hgf]
      · rw [if_neg hc] at h
        exact absurd (congrArg Prod.fst h) (by simp)

theorem observe_twice_same_observer_witness :
    observe ⟨true, false, 0⟩ ⟨true, false, true, true, false, none⟩ false =
        (some ⟨⟨0, []⟩, 0⟩, ⟨true, false, true, true, false, some ⟨⟨0, []⟩, 0⟩⟩,
          ⟨true, false, 1⟩) ∧
      observe ⟨true, false, 1⟩ ⟨true, false, true, true, false, some ⟨⟨0, []⟩, 0⟩⟩ false =
        (some ⟨⟨0, []⟩, 0⟩, ⟨true, false, true, true, false, some ⟨⟨0, []⟩, 0⟩⟩,
          ⟨true, false, 1⟩) :=
  ⟨rfl, observe_twice_same_observer ⟨true, false, 0⟩
    ⟨true, false, true, true, false, none⟩ ⟨⟨0, []⟩, 0⟩
    ⟨true, false, true, true, false, some ⟨⟨0, []⟩, 0⟩⟩ ⟨true, false, 1⟩ rfl⟩

/-- C6: `set` on a root container — `_isVue` set, or an Observer with
nonzero `vmCount` — with a key the target does not have refuses the
addition: the value is returned, the target keeps its property table,
no `Dep` is allocated (the uid counter is unchanged, so no interceptor
was installed) and nobody is notified. -/
theorem setObj_refuses_root (production async : Bool) (uid : Nat)
    (o : RObject) (key : String) (val : ObsValue)
    (hk : hasKey o key = false) (hr : isRootGuard o = true) :
    setObj production async uid o key val = ⟨o, [], val, uid⟩ := by
  unfold setObj
  rw [if_neg (by simp [hk]), if_pos hr]

theorem setObj_refuses_root_witness :
    hasKey { props := [], ob := some ⟨⟨0, []⟩, 1⟩, isVue := false } "k" = false ∧
      isRootGuard { props := [], ob := some ⟨⟨0, []⟩, 1⟩, isVue := false } = true ∧
      setObj false false 5 { props := [], ob := some ⟨⟨0, []⟩, 1⟩, isVue := false }
          "k" (.prim (.num 3)) =
        ⟨{ props := [], ob := some ⟨⟨0, []⟩, 1⟩, isVue := false }, [],
          .prim (.num 3), 5⟩ :=
  ⟨rfl, rfl,
    setObj_refuses_root false false 5
      { props := [], ob := some ⟨⟨0, []⟩, 1⟩, isVue := false } "k"
      (.prim (.num 3)) rfl rfl⟩

/-- Growing `.length` to an index at or past the end yields exactly
that length. -/
theorem jsSetLength_length_of_le {elems : List ObsValue} {key : Nat}
    (h : elems.length ≤ key) : (jsSetLength elems key).length = key := by
  unfold jsSetLength
  by_cases hc : key ≤ elems.length
  · rw [if_pos hc]
    simp [Nat.le_antisymm hc h]
  · rw [if_neg hc]
    simp only [List.length_append, List.length_replicate]
    omega

/-- `splice(len, 1, val)` at the exact end of a list deletes nothing
and appends `val`. -/
theorem jsSplice_at_end (E : List ObsValue) (key : Nat) (hE : E.length = key)
    (val : ObsValue) : jsSplice E key 1 [val] = E ++ [val] := by
  subst hE
  unfold jsSplice
  simp

/-- C1: `set(arr, i, x)` on an observed array at an index `i` at or
past the end grows the array to length exactly `i + 1`, stores `x` at
index `i`, returns `x`, and (through the wrapped splice) invokes
`update()` on every subscriber of the array's collection Dep. -/
theorem setArr_past_end (production async : Bool) (arr : RArray) (ob : Observer)
    (key : Nat) (val : ObsValue)
    (hob : arr.ob = some ob) (hlen : arr.elems.length ≤ key) :
    (setArr production async arr key val).1.elems.length = key + 1 ∧
      (setArr production async arr key val).1.elems[key]? = some val ∧
      (setArr production async arr key val).2.2 = val ∧
      ∀ s ∈ ob.dep.subs, s ∈ (setArr production async arr key val).2.1 := by
  have hmax : max arr.elems.length key = key := Nat.max_eq_right hlen
  have hE : (jsSetLength arr.elems key).length = key := jsSetLength_length_of_le hlen
  have hset : setArr production async arr key val =
      ({ elems := jsSetLength arr.elems key ++ [val], ob := arr.ob },
        Dep.notifyOrder production async ob.dep, val) := by
    unfold setArr wrappedSplice
    rw [hmax]
    simp only [hob, jsSplice_at_end _ _ hE val]
  rw [hset]
  set E := jsSetLength arr.elems key with hEdef
  refine ⟨?_, ?_, rfl, ?_⟩
  · simp [hE]
  · rw [← hE]
    exact List.getElem?_concat_length E val
  · intro s hs
    exact (mem_notifyOrder production async ob.dep s).mpr hs

theorem setArr_past_end_witness :
    ({ elems := [], ob := some ⟨⟨0, [⟨5⟩]⟩, 0⟩ } : RArray).ob = some ⟨⟨0, [⟨5⟩]⟩, 0⟩ ∧
      ({ elems := [], ob := some ⟨⟨0, [⟨5⟩]⟩, 0⟩ } : RArray).elems.length ≤ 2 ∧
      ((setArr false false { elems := [], ob := some ⟨⟨0, [⟨5⟩]⟩, 0⟩ } 2
            (.prim (.num 9))).1.elems.length = 2 + 1 ∧
        (setArr false false { elems := [], ob := some ⟨⟨0, [⟨5⟩]⟩, 0⟩ } 2
            (.prim (.num 9))).1.elems[2]? = some (.prim (.num 9)) ∧
        (setArr false false { elems := [], ob := some ⟨⟨0, [⟨5⟩]⟩, 0⟩ } 2
            (.prim (.num 9))).2.2 = .prim (.num 9) ∧
        ∀ s ∈ (Observer.mk ⟨0, [⟨5⟩]⟩ 0).dep.subs,
          s ∈ (setArr false false { elems := [], ob := some ⟨⟨0, [⟨5⟩]⟩, 0⟩ } 2
            (.prim (.num 9))).2.1) :=
  ⟨rfl, by decide,
    setArr_past_end false false { elems := [], ob := some ⟨⟨0, [⟨5⟩]⟩, 0⟩ }
      ⟨⟨0, [⟨5⟩]⟩, 0⟩ 2 (.prim (.num 9)) rfl (by decide)⟩

/-- After deleting `k` from a property table with (JS-guaranteed)
distinct keys, no entry named `k` remains. -/
theorem deleteKey_removes (l : List PropEntry) (k : String)
    (hnodup : (l.map PropEntry.key).Nodup) :
    ((deleteKey l k).any fun e => e.key == k) = false := by
  induction l with
  | nil => rfl
  | cons e rest ih =>
    have hnd : (∀ x ∈ rest, ¬ PropEntry.key x = e.key) ∧
        (rest.map PropEntry.key).Nodup := by simpa using hnodup
    unfold deleteKey
    by_cases hc : (e.key == k) = true
    · rw [if_pos hc]
      have hk : e.key = k := by simpa using hc
      subst hk
      simp only [List.any_eq_false, beq_iff_eq]
      exact hnd.1
    · rw [if_neg hc]
      simp only [List.any_cons, Bool.or_eq_false_iff]
      exact ⟨by simpa using hc, ih hnd.2⟩

/-- C9: `del` on a non-array, non-root target with a key that is not an
own property is a no-op (target and every Dep untouched); with an own
key, exactly that entry is removed from the property table and the
collection Dep of the target's Observer is notified precisely when an
Observer exists. -/
theorem delObj_frame (production async : Bool) (o : RObject) (key : String)
    (hroot : isRootGuard o = false)
    (hnodup : (o.props.map PropEntry.key).Nodup) :
    (hasKey o key = false → delObj production async o key = ⟨o, []⟩) ∧
      (hasKey o key = true →
        hasKey (delObj production async o key).target key = false ∧
          (delObj production async o key).target.props = deleteKey o.props key ∧
          (o.ob = none → (delObj production async o key).notified = []) ∧
          ∀ ob, o.ob = some ob →
            (delObj production async o key).notified =
              Dep.notifyOrder production async ob.dep) := by
  constructor
  · intro hk
    unfold delObj
    rw [if_neg (by simp [hroot]), if_pos (by simp [hk])]
  · intro hk
    cases hob : o.ob with
    | none =>
      have hd : delObj production async o key =
          ⟨{ o with props := deleteKey o.props key }, []⟩ := by
        unfold delObj
        rw [if_neg (by simp [hroot]), if_neg (by simp [hk]), hob]
      rw [hd]
      refine ⟨deleteKey_removes o.props key hnodup, rfl, fun _ => rfl, ?_⟩
      intro ob hx
      cases hx
    | some ob =>
      have hd : delObj production async o key =
          ⟨{ o with props := deleteKey o.props key },
            Dep.notifyOrder production async ob.dep⟩ := by
        unfold delObj
        rw [if_neg (by simp [hroot]), if_neg (by simp [hk]), hob]
      rw [hd]
      refine ⟨deleteKey_removes o.props key hnodup, rfl, ?_, ?_⟩
      · intro hx
        cases hx
      · intro ob2 hx
        cases hx
        rfl

/-- A concrete observed non-root object with one plain property `"a"`
and one subscriber on its collection Dep, used to instantiate the `del`
frame theorem. -/
def delSample : RObject :=
  { props := [.plain "a" (.prim .undef)], ob := some ⟨⟨0, [⟨3⟩]⟩, 0⟩, isVue := false }

theorem delObj_frame_witness :
    isRootGuard delSample = false ∧
      (delSample.props.map PropEntry.key).Nodup ∧
      ((hasKey delSample "a" = false →
          delObj false false delSample "a" = ⟨delSample, []⟩) ∧
        (hasKey delSample "a" = true →
          hasKey (delObj false false delSample "a").target "a" = false ∧
            (delObj false false delSample "a").target.props =
              deleteKey delSample.props "a" ∧
            (delSample.ob = none →
              (delObj false false delSample "a").notified = []) ∧
            ∀ ob, delSample.ob = some ob →
              (delObj false false delSample "a").notified =
                Dep.notifyOrder false false ob.dep)) :=
  ⟨rfl, by simp [delSample],
    delObj_frame false false delSample "a" rfl (by simp [delSample])⟩

/-- Registering a watcher on a property's dep does not rename the
property. -/
theorem addSubEntry_key (key : String) (w : Watcher) (e : PropEntry) :
    (addSubEntry key w e).key = e.key := by
  cases e with
  | tracked p =>
    simp only [addSubEntry]
    by_cases hc : (p.key == key) = true
    · rw [if_pos hc]
      rfl
    · rw [if_neg hc]
  | plain k v => rfl

/-- An assignment walks past every entry whose key does not match. -/
theorem assignProps_skip (production async : Bool) (l l2 : List PropEntry)
    (k : String) (v : ObsValue)
    (h : ∀ e ∈ l, (PropEntry.key e == k) = false) :
    assignProps production async (l ++ l2) k v =
      (l ++ (assignProps production async l2 k v).1,
        (assignProps production async l2 k v).2) := by
  induction l with
  | nil => simp
  | cons e rest ih =>
    have he : (e.key == k) = false := h e (List.mem_cons_self e rest)
    have ih2 := ih fun e2 he2 => h e2 (List.mem_cons_of_mem e he2)
    simp [List.cons_append, assignProps, he, ih2]

/-- C8: `set(obj, key, x)` on an observed non-root object with a fresh
key installs `key` as a tracked property (with a newly allocated dep)
at the end of the table, returns `x`, and notifies every subscriber of
the Observer's collection Dep; and once a watcher registers on the new
property's dep, the ordinary write `obj[key] = y` with `y` differing
from `x` (and not the NaN-over-NaN case) notifies that watcher. -/
theorem setObj_new_key_tracked (production async : Bool) (uid : Nat)
    (o : RObject) (ob : Observer) (key : String) (x y : ObsValue) (w : Watcher)
    (hob : o.ob = some ob) (hroot : isRootGuard o = false)
    (hk : hasKey o key = false)
    (hxy : (jsEq y x || (selfNeq y && selfNeq x)) = false) :
    (setObj production async uid o key x).ret = x ∧
      (setObj production async uid o key x).target.props =
        o.props ++ [.tracked { key := key, value := x, dep := { id := uid, subs := [] } }] ∧
      (∀ s ∈ ob.dep.subs, s ∈ (setObj production async uid o key x).notified) ∧
      w ∈ (assignKey production async
            (addSubToProp (setObj production async uid o key x).target key w)
            key y).2 := by
  have hset : setObj production async uid o key x =
      ⟨{ o with props := o.props ++
          [.tracked { key := key, value := x, dep := { id := uid, subs := [] } }] },
        Dep.notifyOrder production async ob.dep, x, uid + 1⟩ := by
    unfold setObj
    rw [if_neg (by simp [hk]), if_neg (by simp [hroot]), hob]
  rw [hset]
  refine ⟨rfl, rfl, ?_, ?_⟩
  · intro s hs
    exact (mem_notifyOrder production async ob.dep s).mpr hs
  · have hk2 : ∀ e ∈ o.props, (PropEntry.key e == key) = false := by
      have hk3 := hk
      unfold hasKey at hk3
      simpa [List.any_eq_false] using hk3
    have hmapped : ∀ e ∈ o.props.map (addSubEntry key w),
        (PropEntry.key e == key) = false := by
      intro e he
      obtain ⟨e0, he0, heq⟩ := List.mem_map.mp he
      rw [← heq, addSubEntry_key]
      exact hk2 e0 he0
    have hadd : addSubToProp
        { o with props := o.props ++
            [.tracked { key := key, value := x, dep := { id := uid, subs := [] } }] }
          key w =
        { o with props := o.props.map (addSubEntry key w) ++
            [.tracked { key := key, value := x, dep := { id := uid, subs := [w] } }] } := by
      unfold addSubToProp
      simp [addSubEntry, Dep.addSub]
    rw [hadd]
    unfold assignKey
    rw [assignProps_skip production async _ _ key y hmapped]
    simp [assignProps, reactiveSet, hxy, PropEntry.key]
    exact (mem_notifyOrder production async ⟨uid, [w]⟩ w).mpr (by simp)

/-- A concrete observed, empty, non-root object used to instantiate the
new-key tracking theorem. -/
def setSample : RObject :=
  { props := [], ob := some ⟨⟨0, []⟩, 0⟩, isVue := false }

theorem setObj_new_key_tracked_witness :
    setSample.ob = some ⟨⟨0, []⟩, 0⟩ ∧
      isRootGuard setSample = false ∧
      hasKey setSample "k" = false ∧
      (jsEq (.prim (.num 2)) (.prim (.num 1)) ||
          (selfNeq (.prim (.num 2)) && selfNeq (.prim (.num 1)))) = false ∧
      ((setObj false false 1 setSample "k" (.prim (.num 1))).ret = .prim (.num 1) ∧
        (setObj false false 1 setSample "k" (.prim (.num 1))).target.props =
          setSample.props ++
            [.tracked { key := "k", value := .prim (.num 1),
                        dep := { id := 1, subs := [] } }] ∧
        (∀ s ∈ (Observer.mk ⟨0, []⟩ 0).dep.subs,
          s ∈ (setObj false false 1 setSample "k" (.prim (.num 1))).notified) ∧
        ⟨7⟩ ∈ (assignKey false false
              (addSubToProp (setObj false false 1 setSample "k" (.prim (.num 1))).target
                "k" ⟨7⟩)
              "k" (.prim (.num 2))).2) :=
  ⟨rfl, rfl, rfl, rfl,
    setObj_new_key_tracked false false 1 setSample ⟨⟨0, []⟩, 0⟩ "k"
      (.prim (.num 1)) (.prim (.num 2)) ⟨7⟩ rfl rfl rfl rfl⟩

end VueReactivity
